import Mathlib

/-!
Verification of the TPVToggle mod core (KDC2Tools repository).

Shallow embedding of:
- `setViewState`, `safeToggleViewState`, `setFirstPersonView`,
  `setThirdPersonView` and the `ToggleThread` polling loop
  (src/TPVToggle/src/toggle_thread.cpp);
- `CleanupResources` and `MainThread` (src/TPVToggle/src/dllmain.cpp);
- the AOB memory scanner (modelled from the spec, since aob_scanner.cpp
  is not part of the provided sources).

Windows API effects (VirtualQuery, memory reads/writes, GetAsyncKeyState,
MinHook statuses) are modelled by explicit state records and environment
records holding the outcomes of the external calls.  Logging is ignored:
it has no effect on control flow or memory.
-/

namespace TPVToggle

/-! ## Constants (src/TPVToggle/src/constants.h and winnt.h values) -/

def MEM_COMMIT : Nat := 0x1000
def PAGE_READWRITE : Nat := 0x04
def PAGE_WRITECOPY : Nat := 0x08
def PAGE_EXECUTE_READWRITE : Nat := 0x40
def PAGE_EXECUTE_WRITECOPY : Nat := 0x80

/-- Value of `Constants::TOGGLE_FLAG_OFFSET`. -/
def TOGGLE_FLAG_OFFSET : Nat := 0x38

/-- Value of `Constants::HOOK_OFFSET`. -/
def HOOK_OFFSET : Nat := 11

/-- The protection mask tested by `setViewState`:
`PAGE_READWRITE | PAGE_WRITECOPY | PAGE_EXECUTE_READWRITE | PAGE_EXECUTE_WRITECOPY`. -/
def writableProtectMask : Nat :=
  PAGE_READWRITE ||| PAGE_WRITECOPY ||| PAGE_EXECUTE_READWRITE ||| PAGE_EXECUTE_WRITECOPY

/-! ## Machine state visible to `setViewState` and `safeToggleViewState` -/

/-- Result of a successful `VirtualQuery`: the fields of
`MEMORY_BASIC_INFORMATION` that `setViewState` inspects. -/
structure MemInfo where
  memState : Nat
  protect : Nat
deriving DecidableEq

/-- The process state a single call of `setViewState` / `safeToggleViewState`
observes: the global `g_r9_for_tpv_flag` pointer (None models NULL), the
value stored in the captured-pointer cell, the outcome of `VirtualQuery`
at each address (None models query failure), byte memory, and which
accesses fault (raise an exception) or fail the `IsBadReadPtr` check. -/
structure MachineState where
  r9StoragePtr : Option Nat
  r9StorageVal : Nat
  query : Nat → Option MemInfo
  mem : Nat → Nat
  faultOnAccess : Nat → Bool
  badReadPtr : Nat → Bool

/-- Observable outcome of one call: the returned bool, the memory after the
call, and logs of the byte writes and byte reads performed on target
memory (address, value pairs for writes). -/
structure SVSResult where
  ok : Bool
  mem : Nat → Nat
  writes : List (Nat × Nat)
  reads : List Nat

/-- Failure return: `false`, memory untouched, no reads or writes. -/
def svsFail (s : MachineState) : SVSResult :=
  { ok := false, mem := s.mem, writes := [], reads := [] }

/-- Embedding of `setViewState` (toggle_thread.cpp lines 31-129).
Checks, in source order: NULL storage pointer; captured value 0;
`VirtualQuery` failure; `State != MEM_COMMIT` or no writable protection
bit; then inside try/catch reads the current byte and writes `new_state`
only when it differs (an access fault is caught and returns false).
`new_state` is a C `BYTE`, hence the `% 256`. -/
def setViewState (s : MachineState) (new_state : Nat) : SVSResult :=
  match s.r9StoragePtr with
  | none => svsFail s
  | some _ =>
    let r9_value := s.r9StorageVal
    if r9_value = 0 then svsFail s
    else
      let flag_addr := r9_value + TOGGLE_FLAG_OFFSET
      match s.query flag_addr with
      | none => svsFail s
      | some mem_info =>
        if mem_info.memState ≠ MEM_COMMIT ∨ mem_info.protect &&& writableProtectMask = 0 then
          svsFail s
        else if s.faultOnAccess flag_addr then
          svsFail s
        else
          let current_value := s.mem flag_addr
          let ns := new_state % 256
          if current_value ≠ ns then
            { ok := true
              mem := fun a => if a = flag_addr then ns else s.mem a
              writes := [(flag_addr, ns)]
              reads := [flag_addr] }
          else
            { ok := true, mem := s.mem, writes := [], reads := [flag_addr] }

/-- Embedding of `safeToggleViewState` (toggle_thread.cpp lines 134-178).
Re-checks the storage pointer and captured value, performs the
`IsBadReadPtr`-guarded read of the current byte inside try/catch,
computes `(current_value == 0) ? 1 : 0` and delegates to `setViewState`;
its own read of the flag byte is prepended to the read log. -/
def safeToggleViewState (s : MachineState) : SVSResult :=
  match s.r9StoragePtr with
  | none => svsFail s
  | some _ =>
    if s.r9StorageVal = 0 then svsFail s
    else
      let flag_addr := s.r9StorageVal + TOGGLE_FLAG_OFFSET
      if s.badReadPtr flag_addr || s.faultOnAccess flag_addr then svsFail s
      else
        let current_value := s.mem flag_addr
        let new_value : Nat := if current_value = 0 then 1 else 0
        let r := setViewState s new_value
        { r with reads := flag_addr :: r.reads }

/-- Embedding of `setFirstPersonView` (toggle_thread.cpp lines 183-186). -/
def setFirstPersonView (s : MachineState) : SVSResult :=
  setViewState s 0

/-- Embedding of `setThirdPersonView` (toggle_thread.cpp lines 191-194). -/
def setThirdPersonView (s : MachineState) : SVSResult :=
  setViewState s 1

/-! ## The `ToggleThread` polling loop (toggle_thread.cpp lines 200-308)

The loop samples each configured key with `GetAsyncKeyState`, fires the
corresponding action on a rising edge (down now, up last cycle), always
stores the fresh sample in the debounce map, and sleeps 15 ms if any
action fired this cycle, 50 ms otherwise.  A cycle whose body raises an
exception is caught in the loop, sleeps 1000 ms, and the loop continues.
We model one cycle's key samples as a function `Nat → Bool` (virtual-key
code to pressed), and an exception during a cycle as the input `none`. -/

/-- Which of the three per-key actions fires (toggle / force-FPV / force-TPV). -/
inductive ActionKind where
  | toggle
  | fpv
  | tpv
deriving DecidableEq

/-- The three key lists from `ToggleData` (toggle_thread.h). -/
structure KeyCfg where
  toggle_keys : List Nat
  fpv_keys : List Nat
  tpv_keys : List Nat

/-- The keys in the order the loop body visits them: all Toggle keys,
then all FPV keys, then all TPV keys, each tagged with its action. -/
def taggedKeys (cfg : KeyCfg) : List (ActionKind × Nat) :=
  cfg.toggle_keys.map (fun vk => (ActionKind.toggle, vk)) ++
  cfg.fpv_keys.map (fun vk => (ActionKind.fpv, vk)) ++
  cfg.tpv_keys.map (fun vk => (ActionKind.tpv, vk))

/-- State threaded through one cycle's key passes: the debounce map
`key_was_down`, the actions invoked so far this cycle (in order), and the
`action` flag used to pick the sleep duration. -/
structure KProcState where
  wasDown : Nat → Bool
  acts : List (ActionKind × Nat)
  fired : Bool

/-- One iteration of a key pass: sample the key, fire on a rising edge,
and unconditionally overwrite the debounce entry with the fresh sample. -/
def keyStep (pressed : Nat → Bool) (st : KProcState) (k : ActionKind × Nat) : KProcState :=
  let down := pressed k.2
  let justPressed := down && !(st.wasDown k.2)
  { wasDown := fun v => if v = k.2 then down else st.wasDown v
    acts := if justPressed then st.acts ++ [k] else st.acts
    fired := st.fired || justPressed }

/-- The three key passes of one poll cycle (toggle_thread.cpp lines 256-291). -/
def processKeys (cfg : KeyCfg) (pressed : Nat → Bool) (wasDown : Nat → Bool) : KProcState :=
  (taggedKeys cfg).foldl (keyStep pressed) ⟨wasDown, [], false⟩

/-- The debounce map as initialized before the loop: every key maps to
"up" (false). -/
def initWasDown : Nat → Bool := fun _ => false

/-- One trip through `while (true)`: on a normal cycle run the key passes
and sleep 15 or 50 ms; on a cycle whose body raises (`none`), the catch
block keeps the state, fires nothing, and sleeps 1000 ms.  Returns the
new debounce map, the actions fired, and the sleep in ms. -/
def loopStep (cfg : KeyCfg) (wasDown : Nat → Bool) (input : Option (Nat → Bool)) :
    (Nat → Bool) × List (ActionKind × Nat) × Nat :=
  match input with
  | none => (wasDown, [], 1000)
  | some pressed =>
    let st := processKeys cfg pressed wasDown
    (st.wasDown, st.acts, if st.fired then 15 else 50)

/-- Run the polling loop over a finite prefix of cycles; yields, per cycle,
the actions fired and the sleep duration. -/
def runLoop (cfg : KeyCfg) (wasDown : Nat → Bool) :
    List (Option (Nat → Bool)) → List (List (ActionKind × Nat) × Nat)
  | [] => []
  | input :: rest =>
    let r := loopStep cfg wasDown input
    (r.2.1, r.2.2) :: runLoop cfg r.1 rest

/-! ## The hooking facility, global handles, `CleanupResources`, `MainThread`
(src/TPVToggle/src/dllmain.cpp)

The MinHook library is an external collaborator (spec section 6: statuses
distinguishable as success / already-in-that-state / failure).  We model
its state as the set of created and enabled hook addresses plus an
initialized flag, and each call's status.  External failure of a call
that can fail for outside reasons is supplied by the environment. -/

/-- MinHook status values distinguished by dllmain.cpp. -/
inductive MhStatus where
  | ok
  | errNotInited
  | errAlreadyInited
  | errNotCreated
  | errAlreadyCreated
  | errDisabled
  | errFail
deriving DecidableEq

/-- State of the external hooking facility. -/
structure MHState where
  inited : Bool
  created : List Nat
  enabled : List Nat
deriving DecidableEq

/-- The facility before `MH_Initialize`. -/
def mhClean : MHState := ⟨false, [], []⟩

/-- Model of `MH_Initialize`: fails externally when `extOk` is false. -/
def MH_Init (m : MHState) (extOk : Bool) : MhStatus × MHState :=
  if m.inited then (.errAlreadyInited, m)
  else if extOk then (.ok, { m with inited := true })
  else (.errFail, m)

/-- Model of `MH_CreateHook`: on success records the hook and yields the
continuation pointer `cont` through the out-parameter (modelled as the
third component; `none` stands for a NULL continuation). -/
def MH_CreateHookM (m : MHState) (addr : Nat) (extOk : Bool) (cont : Option Nat) :
    MhStatus × MHState × Option Nat :=
  if ¬ m.inited then (.errNotInited, m, none)
  else if addr ∈ m.created then (.errAlreadyCreated, m, none)
  else if extOk then (.ok, { m with created := addr :: m.created }, cont)
  else (.errFail, m, none)

/-- Model of `MH_EnableHook`. -/
def MH_EnableHookM (m : MHState) (addr : Nat) (extOk : Bool) : MhStatus × MHState :=
  if ¬ m.inited then (.errNotInited, m)
  else if addr ∉ m.created then (.errNotCreated, m)
  else if extOk then (.ok, { m with enabled := addr :: m.enabled })
  else (.errFail, m)

/-- Model of `MH_DisableHook`: disabling an already-disabled hook reports
`MH_ERROR_DISABLED`. -/
def MH_DisableHookM (m : MHState) (addr : Nat) : MhStatus × MHState :=
  if ¬ m.inited then (.errNotInited, m)
  else if addr ∉ m.created then (.errNotCreated, m)
  else if addr ∉ m.enabled then (.errDisabled, m)
  else (.ok, { m with enabled := m.enabled.erase addr })

/-- Model of `MH_RemoveHook`. -/
def MH_RemoveHookM (m : MHState) (addr : Nat) : MhStatus × MHState :=
  if ¬ m.inited then (.errNotInited, m)
  else if addr ∉ m.created then (.errNotCreated, m)
  else (.ok, { m with created := m.created.erase addr, enabled := m.enabled.erase addr })

/-- Model of `MH_Uninitialize`: tears down the facility and every hook it holds. -/
def MH_Uninit (m : MHState) : MhStatus × MHState :=
  if ¬ m.inited then (.errNotInited, m) else (.ok, mhClean)

/-- The global handles of dllmain.cpp plus the facility state and a ledger
of live `VirtualAlloc` allocations (an address is appended on allocation
and erased when `CleanupResources` frees it). -/
structure GlobalsState where
  g_tpvHookAddress : Option Nat
  fpTPV_OriginalCode : Option Nat
  g_r9_for_tpv_flag : Option Nat
  mh : MHState
  liveAllocs : List Nat
deriving DecidableEq

/-- The globals at their static initializers: everything NULL, facility
untouched, nothing allocated. -/
def initGlobals : GlobalsState := ⟨none, none, none, mhClean, []⟩

/-- The externally visible operations `CleanupResources` can perform. -/
inductive CleanupOp where
  | disableHook
  | removeHook
  | uninit
  | freeMem
deriving DecidableEq

/-- Embedding of `CleanupResources` (dllmain.cpp lines 64-144).
Disable (and, when disable reports OK or already-disabled, remove) the
hook only when both `g_tpvHookAddress` and `fpTPV_OriginalCode` are
non-NULL; uninitialize MinHook only when `g_tpvHookAddress` is non-NULL;
free the captured-pointer storage only when `g_r9_for_tpv_flag` is
non-NULL, nulling it; finally null the remaining two globals.  Also
returns the list of operations performed. -/
def CleanupResources (s : GlobalsState) : GlobalsState × List CleanupOp :=
  -- phase 1: disable and (when disable reports OK or already-disabled) remove,
  -- guarded by both handles being non-NULL; only the facility state changes
  let p1 : MHState × List CleanupOp :=
    match s.g_tpvHookAddress, s.fpTPV_OriginalCode with
    | some addr, some _ =>
      let d := MH_DisableHookM s.mh addr
      if d.1 = .ok ∨ d.1 = .errDisabled then
        ((MH_RemoveHookM d.2 addr).2, [.disableHook, .removeHook])
      else (d.2, [.disableHook])
    | _, _ => (s.mh, [])
  -- phase 2: uninitialize, guarded by the hook address being non-NULL
  let p2 : MHState × List CleanupOp :=
    match s.g_tpvHookAddress with
    | some _ => ((MH_Uninit p1.1).2, p1.2 ++ [.uninit])
    | none => p1
  -- phase 3: free the captured-pointer storage and null its pointer,
  -- guarded by it being non-NULL; then null the remaining two globals
  match s.g_r9_for_tpv_flag with
  | some cell =>
    ({ g_tpvHookAddress := none, fpTPV_OriginalCode := none,
       g_r9_for_tpv_flag := none, mh := p2.1,
       liveAllocs := s.liveAllocs.erase cell }, p2.2 ++ [.freeMem])
  | none =>
    ({ g_tpvHookAddress := none, fpTPV_OriginalCode := none,
       g_r9_for_tpv_flag := none, mh := p2.1,
       liveAllocs := s.liveAllocs }, p2.2)

/-- Outcomes of the external calls `MainThread` makes, in program order:
the `VirtualAlloc` result, the module lookup result (after the bounded
retry loop), `GetModuleInformation` success, whether `parseAOB` produced
a non-empty pattern, the `FindPattern` result, external success of
`MH_Initialize` / `MH_CreateHook` / `MH_EnableHook`, the continuation
pointer MinHook hands back, and `CreateThread` success. -/
structure WinEnv where
  allocResult : Option Nat
  moduleBase : Option Nat
  moduleInfoOk : Bool
  patternNonEmpty : Bool
  scanResult : Option Nat
  mhInitExtOk : Bool
  mhCreateExtOk : Bool
  createCont : Option Nat
  mhEnableExtOk : Bool
  createThreadOk : Bool

/-- Embedding of `MainThread` (dllmain.cpp lines 151-342), starting from
the pristine globals.  Returns the exit code, the final globals, and
whether the key-monitoring thread was started.  Each failure path mirrors
the source: `VirtualAlloc` failure returns 1 directly; later failures run
`CleanupResources` (preceded, on the MinHook paths, by the same direct
`MH_RemoveHook` / `MH_Uninitialize` / `MH_DisableHook` calls the source
makes) and return 1. -/
def MainThread (env : WinEnv) : Nat × GlobalsState × Bool :=
  let s0 := initGlobals
  match env.allocResult with
  | none => (1, s0, false)
  | some cell =>
    let s1 := { s0 with g_r9_for_tpv_flag := some cell, liveAllocs := [cell] }
    match env.moduleBase with
    | none => (1, (CleanupResources s1).1, false)
    | some _ =>
      if ¬ env.moduleInfoOk then (1, (CleanupResources s1).1, false)
      else if ¬ env.patternNonEmpty then (1, (CleanupResources s1).1, false)
      else
        match env.scanResult with
        | none => (1, (CleanupResources s1).1, false)
        | some pattern_start =>
          let hookAddr := pattern_start + HOOK_OFFSET
          let s2 := { s1 with g_tpvHookAddress := some hookAddr }
          let i := MH_Init s2.mh env.mhInitExtOk
          let s3 := { s2 with mh := i.2 }
          if i.1 ≠ .ok then (1, (CleanupResources s3).1, false)
          else
            let c := MH_CreateHookM s3.mh hookAddr env.mhCreateExtOk env.createCont
            let s4 := { s3 with mh := c.2.1 }
            if c.1 ≠ .ok then
              let u := MH_Uninit s4.mh
              (1, (CleanupResources { s4 with mh := u.2 }).1, false)
            else
              let s5 := { s4 with fpTPV_OriginalCode := c.2.2 }
              match c.2.2 with
              | none =>
                let r := MH_RemoveHookM s5.mh hookAddr
                let u := MH_Uninit r.2
                (1, (CleanupResources { s5 with mh := u.2 }).1, false)
              | some _ =>
                let e := MH_EnableHookM s5.mh hookAddr env.mhEnableExtOk
                let s6 := { s5 with mh := e.2 }
                if e.1 ≠ .ok then
                  let r := MH_RemoveHookM s6.mh hookAddr
                  let u := MH_Uninit r.2
                  (1, (CleanupResources { s6 with mh := u.2 }).1, false)
                else
                  if ¬ env.createThreadOk then
                    let d := MH_DisableHookM s6.mh hookAddr
                    let r := MH_RemoveHookM d.2 hookAddr
                    let u := MH_Uninit r.2
                    (1, (CleanupResources { s6 with mh := u.2 }).1, false)
                  else
                    (0, s6, true)

/-! ## The memory scanner -/

/-- Modelled from the spec: helper of `FindPattern`.  The file
aob_scanner.cpp (declaring `FindPattern`) is not among the provided
sources, so the scanner is modelled from spec section 4.2: a masked
exact-match test of the compiled pattern (`none` = wildcard) against the
first bytes of a region suffix; a pattern longer than the remaining
region does not match. -/
def matchBytes : List Nat → List (Option Nat) → Bool
  | _, [] => true
  | [], _ :: _ => false
  | r :: rs, p :: ps =>
    (match p with
     | none => true
     | some b => decide (r = b)) && matchBytes rs ps

/-- Modelled from the spec: helper of `FindPattern`; scans the region
suffixes left to right, returning the tag `a` of the first suffix the
pattern matches.  The region is a `List`, so no byte past its end can be
read. -/
def findFrom (pat : List (Option Nat)) : List Nat → Nat → Option Nat
  | [], a => if matchBytes [] pat then some a else none
  | r :: rs, a =>
    if matchBytes (r :: rs) pat then some a else findFrom pat rs (a + 1)

/-- Modelled from the spec: `FindPattern` (aob_scanner.cpp is not among
the provided sources).  Spec section 4.2: return the lowest offset `a` in
`[0, length - patternLength]` at which every pattern byte is a wildcard
or equals the region byte at `a + i`; "not found" (`none`) when no such
offset exists or the pattern is longer than the region. -/
def FindPattern (region : List Nat) (pat : List (Option Nat)) : Option Nat :=
  findFrom pat region 0

/-- The spec's matching condition, written from the spec's words: offset
`a` is a match when `a + patternLength ≤ length` and every pattern index
holds a wildcard or the byte of the region at `a + i`. -/
def SpecMatch (region : List Nat) (pat : List (Option Nat)) (a : Nat) : Prop :=
  a + pat.length ≤ region.length ∧
  ∀ i, i < pat.length →
    pat.getD i none = none ∨ pat.getD i none = some (region.getD (a + i) 0)

instance (region : List Nat) (pat : List (Option Nat)) (a : Nat) :
    Decidable (SpecMatch region pat a) := by
  unfold SpecMatch; infer_instance

/-! ## Concrete states used to instantiate the theorems -/

/-- A committed read-write page, as `VirtualQuery` would report it. -/
def memInfoRW : MemInfo := ⟨MEM_COMMIT, PAGE_READWRITE⟩

/-- A state whose memory is writable everywhere and holds 1 in every
byte; the captured pointer is set. -/
def sAllOnes : MachineState :=
  { r9StoragePtr := some 1000
    r9StorageVal := 0x100
    query := fun _ => some memInfoRW
    mem := fun _ => 1
    faultOnAccess := fun _ => false
    badReadPtr := fun _ => false }

/-- Like `sAllOnes` but with every byte 0. -/
def sAllZeros : MachineState :=
  { sAllOnes with mem := fun _ => 0 }

/-- A state where the captured-pointer cell was never written. -/
def sUnset : MachineState :=
  { sAllOnes with r9StorageVal := 0 }

/-- A state whose target page is committed but read-only. -/
def sReadOnly : MachineState :=
  { sAllOnes with query := fun _ => some ⟨MEM_COMMIT, 0x02⟩ }

/-- A state where every memory access faults. -/
def sFaulting : MachineState :=
  { sAllOnes with faultOnAccess := fun _ => true }

/-- The compiled pattern `"48 8B ?? 10"` of the spec's end-to-end
scenario. -/
def patExample : List (Option Nat) := [some 0x48, some 0x8B, none, some 0x10]

/-- The buffer of the spec's end-to-end scenario, matching at offsets 0
and 4. -/
def bufExample : List Nat := [0x48, 0x8B, 0x00, 0x10, 0x48, 0x8B, 0xFF, 0x10]

/-- The key-state inputs of the spec's edge-detection scenario: key 65
reads up, down, down, up, down over five cycles. -/
def edgeInputs : List (Option (Nat → Bool)) :=
  [some (fun _ => false), some (fun v => v == 65), some (fun v => v == 65),
   some (fun _ => false), some (fun v => v == 65)]

/-- A configuration with the single key 65 bound to Toggle. -/
def cfg65 : KeyCfg := ⟨[65], [], []⟩

/-! ## Theorems -/

/-- C1: `setViewState` re-validates the target page on every invocation
(the theorem quantifies over the machine state of each single call, so it
applies to each invocation anew, whatever earlier calls observed): when
the storage pointer and captured value pass their checks, if the
`VirtualQuery` fails, or reports a state other than `MEM_COMMIT`, or a
protection with no writable bit, the call returns false and performs no
write, leaving memory unchanged. -/
theorem setViewState_memory_unsafe (s : MachineState) (new_state p : Nat)
    (hp : s.r9StoragePtr = some p) (hv : s.r9StorageVal ≠ 0)
    (hq : s.query (s.r9StorageVal + TOGGLE_FLAG_OFFSET) = none ∨
          ∃ mi, s.query (s.r9StorageVal + TOGGLE_FLAG_OFFSET) = some mi ∧
            (mi.memState ≠ MEM_COMMIT ∨ mi.protect &&& writableProtectMask = 0)) :
    (setViewState s new_state).ok = false ∧ (setViewState s new_state).writes = [] ∧
    (setViewState s new_state).mem = s.mem := by
  rcases hq with hq | ⟨mi, hq, hbad⟩
  · simp [setViewState, hp, hv, hq, svsFail]
  · simp [setViewState, hp, hv, hq, svsFail, hbad]

/-- Witness for C1: on the concrete read-only-page state, `setViewState`
fails with no write. -/
theorem setViewState_memory_unsafe_witness :
    (setViewState sReadOnly 1).ok = false ∧ (setViewState sReadOnly 1).writes = [] ∧
    (setViewState sReadOnly 1).mem = sReadOnly.mem :=
  setViewState_memory_unsafe sReadOnly 1 1000 rfl (by decide)
    (Or.inr ⟨⟨MEM_COMMIT, 0x02⟩, rfl, Or.inr (by decide)⟩)

/-- C2: when the captured-pointer storage is NULL or the captured value is
still 0, `setViewState` fails, reading and writing nothing. -/
theorem setViewState_channel_unset (s : MachineState) (new_state : Nat)
    (h : s.r9StoragePtr = none ∨ s.r9StorageVal = 0) :
    (setViewState s new_state).ok = false ∧ (setViewState s new_state).writes = [] ∧
    (setViewState s new_state).reads = [] ∧ (setViewState s new_state).mem = s.mem := by
  rcases h with h | h
  · simp [setViewState, h, svsFail]
  · cases hp : s.r9StoragePtr with
    | none => simp [setViewState, hp, svsFail]
    | some p => simp [setViewState, hp, h, svsFail]

/-- Witness for C2: on the concrete never-captured state, `setViewState`
fails with no reads or writes. -/
theorem setViewState_channel_unset_witness :
    (setViewState sUnset 1).ok = false ∧ (setViewState sUnset 1).writes = [] ∧
    (setViewState sUnset 1).reads = [] ∧ (setViewState sUnset 1).mem = sUnset.mem :=
  setViewState_channel_unset sUnset 1 (Or.inr rfl)

/-- C4: no exception escapes. A fault raised accessing the flag byte makes
`setViewState` return false with memory untouched (the try/catch turns it
into a failure); a cycle of the polling loop whose body raises is caught,
keeps the debounce state, and the loop continues with the remaining
cycles after a 1000 ms backoff; a normal cycle sleeps 15 or 50 ms, both
shorter than the backoff; and the loop processes every cycle it is fed,
whatever faults occur. -/
theorem no_exception_escapes :
    (∀ (s : MachineState) (ns : Nat),
        s.faultOnAccess (s.r9StorageVal + TOGGLE_FLAG_OFFSET) = true →
        (setViewState s ns).ok = false ∧ (setViewState s ns).writes = [] ∧
        (setViewState s ns).mem = s.mem) ∧
    (∀ (cfg : KeyCfg) (w : Nat → Bool) (rest : List (Option (Nat → Bool))),
        runLoop cfg w (none :: rest) = ([], 1000) :: runLoop cfg w rest) ∧
    (∀ (cfg : KeyCfg) (w : Nat → Bool) (pressed : Nat → Bool),
        (loopStep cfg w (some pressed)).2.2 = 15 ∨ (loopStep cfg w (some pressed)).2.2 = 50) ∧
    (∀ (inputs : List (Option (Nat → Bool))) (cfg : KeyCfg) (w : Nat → Bool),
        (runLoop cfg w inputs).length = inputs.length) ∧
    (15 : Nat) < 1000 ∧ (50 : Nat) < 1000 := by
  refine ⟨?_, ?_, ?_, ?_, by decide, by decide⟩
  · intro s ns hf
    cases hp : s.r9StoragePtr with
    | none => simp [setViewState, hp, svsFail]
    | some p =>
      by_cases hv : s.r9StorageVal = 0
      · simp [setViewState, hp, hv, svsFail]
      · cases hq : s.query (s.r9StorageVal + TOGGLE_FLAG_OFFSET) with
        | none => simp [setViewState, hp, hv, hq, svsFail]
        | some mi =>
          by_cases hbad : mi.memState ≠ MEM_COMMIT ∨ mi.protect &&& writableProtectMask = 0
          · simp [setViewState, hp, hv, hq, hbad, svsFail]
          · simp [setViewState, hp, hv, hq, hbad, hf, svsFail]
  · intro cfg w rest
    simp [runLoop, loopStep]
  · intro cfg w pressed
    by_cases h : (processKeys cfg pressed w).fired <;> simp [loopStep, h]
  · intro inputs
    induction inputs with
    | nil => intro cfg w; simp [runLoop]
    | cons i rest ih => intro cfg w; simp [runLoop, ih]

/-- Witness for C4: the fault-conversion conjunct applied to the concrete
always-faulting state, together with concrete instances of the loop
conjuncts. -/
theorem no_exception_escapes_witness :
    ((setViewState sFaulting 1).ok = false ∧ (setViewState sFaulting 1).writes = [] ∧
      (setViewState sFaulting 1).mem = sFaulting.mem) ∧
    runLoop cfg65 initWasDown [none] = [([], 1000)] ∧
    (runLoop cfg65 initWasDown edgeInputs).length = edgeInputs.length :=
  ⟨no_exception_escapes.1 sFaulting 1 rfl,
   by rw [no_exception_escapes.2.1 cfg65 initWasDown []]; rfl,
   no_exception_escapes.2.2.2.1 edgeInputs cfg65 initWasDown⟩

/-- C3 counterexample: in a state whose flag byte already equals the
requested value (preconditions all holding), two consecutive
`setViewState` calls with that value both succeed yet together perform
zero writes — not exactly one, refuting the claim as stated. -/
theorem setViewState_twice_can_write_zero :
    (setViewState sAllOnes 1).ok = true ∧
    (setViewState { sAllOnes with mem := (setViewState sAllOnes 1).mem } 1).ok = true ∧
    ¬ ((setViewState sAllOnes 1).writes ++
        (setViewState { sAllOnes with mem := (setViewState sAllOnes 1).mem } 1).writes).length = 1 := by
  decide

/-- C3 (amended): when the flag byte already equals the requested state
the call succeeds without writing; two consecutive calls with the same
value (preconditions holding) perform at most one write — exactly one
when the byte initially differs — and the second call is a success no-op
that leaves memory where the first call put it. -/
theorem setViewState_idempotent (s : MachineState) (new_state p : Nat) (mi : MemInfo)
    (hp : s.r9StoragePtr = some p) (hv : s.r9StorageVal ≠ 0)
    (hq : s.query (s.r9StorageVal + TOGGLE_FLAG_OFFSET) = some mi)
    (hc : mi.memState = MEM_COMMIT) (hw : mi.protect &&& writableProtectMask ≠ 0)
    (hf : s.faultOnAccess (s.r9StorageVal + TOGGLE_FLAG_OFFSET) = false) :
    (setViewState s new_state).ok = true ∧
    (setViewState { s with mem := (setViewState s new_state).mem } new_state).ok = true ∧
    (setViewState { s with mem := (setViewState s new_state).mem } new_state).writes = [] ∧
    (setViewState { s with mem := (setViewState s new_state).mem } new_state).mem =
      (setViewState s new_state).mem ∧
    (s.mem (s.r9StorageVal + TOGGLE_FLAG_OFFSET) = new_state % 256 →
      (setViewState s new_state).writes = []) ∧
    (s.mem (s.r9StorageVal + TOGGLE_FLAG_OFFSET) ≠ new_state % 256 →
      ((setViewState s new_state).writes ++
        (setViewState { s with mem := (setViewState s new_state).mem } new_state).writes).length = 1) := by
  have hbad : ¬ (mi.memState ≠ MEM_COMMIT ∨ mi.protect &&& writableProtectMask = 0) := by
    push_neg; exact ⟨hc, hw⟩
  by_cases heq : s.mem (s.r9StorageVal + TOGGLE_FLAG_OFFSET) = new_state % 256
  · simp [setViewState, hp, hv, hq, hbad, hf, heq]
  · simp [setViewState, hp, hv, hq, hbad, hf, heq]

/-- Witness for C3: the amended theorem applied to the concrete all-zeros
state with requested value 1 (byte initially differs: exactly one write;
second call a success no-op). -/
theorem setViewState_idempotent_witness :
    (setViewState sAllZeros 1).ok = true ∧
    (setViewState { sAllZeros with mem := (setViewState sAllZeros 1).mem } 1).ok = true ∧
    (setViewState { sAllZeros with mem := (setViewState sAllZeros 1).mem } 1).writes = [] ∧
    (setViewState { sAllZeros with mem := (setViewState sAllZeros 1).mem } 1).mem =
      (setViewState sAllZeros 1).mem ∧
    (sAllZeros.mem (sAllZeros.r9StorageVal + TOGGLE_FLAG_OFFSET) = 1 % 256 →
      (setViewState sAllZeros 1).writes = []) ∧
    (sAllZeros.mem (sAllZeros.r9StorageVal + TOGGLE_FLAG_OFFSET) ≠ 1 % 256 →
      ((setViewState sAllZeros 1).writes ++
        (setViewState { sAllZeros with mem := (setViewState sAllZeros 1).mem } 1).writes).length = 1) :=
  setViewState_idempotent sAllZeros 1 1000 memInfoRW rfl (by decide) rfl rfl (by decide) rfl

/-- C8: when its own preconditions hold (storage pointer set, captured
value nonzero, the guarded read neither flagged bad nor faulting),
`safeToggleViewState` equals `setViewState` applied to the opposite
within `{0,1}` of the byte it read — 1 when the byte is 0, 0 for every
nonzero byte — with only its own read of the flag byte prepended to the
read log. -/
theorem safeToggleViewState_delegates (s : MachineState) (p : Nat)
    (hp : s.r9StoragePtr = some p) (hv : s.r9StorageVal ≠ 0)
    (hb : s.badReadPtr (s.r9StorageVal + TOGGLE_FLAG_OFFSET) = false)
    (hf : s.faultOnAccess (s.r9StorageVal + TOGGLE_FLAG_OFFSET) = false) :
    safeToggleViewState s =
      { setViewState s
          (if s.mem (s.r9StorageVal + TOGGLE_FLAG_OFFSET) = 0 then 1 else 0) with
        reads := (s.r9StorageVal + TOGGLE_FLAG_OFFSET) ::
          (setViewState s
            (if s.mem (s.r9StorageVal + TOGGLE_FLAG_OFFSET) = 0 then 1 else 0)).reads } := by
  simp [safeToggleViewState, hp, hv, hb, hf]

/-- Witness for C8: on the concrete all-zeros state the toggle delegates
`setViewState` with new state 1. -/
theorem safeToggleViewState_delegates_witness :
    safeToggleViewState sAllZeros =
      { setViewState sAllZeros
          (if sAllZeros.mem (sAllZeros.r9StorageVal + TOGGLE_FLAG_OFFSET) = 0 then 1 else 0) with
        reads := (sAllZeros.r9StorageVal + TOGGLE_FLAG_OFFSET) ::
          (setViewState sAllZeros
            (if sAllZeros.mem (sAllZeros.r9StorageVal + TOGGLE_FLAG_OFFSET) = 0 then 1 else 0)).reads } :=
  safeToggleViewState_delegates sAllZeros 1000 rfl (by decide) rfl rfl

/-- Helper: a `setViewState` call either writes nothing or writes exactly
the byte `new_state % 256` at the flag address. -/
theorem setViewState_writes_shape (s : MachineState) (ns : Nat) :
    (setViewState s ns).writes = [] ∨
    (setViewState s ns).writes = [(s.r9StorageVal + TOGGLE_FLAG_OFFSET, ns % 256)] := by
  cases hp : s.r9StoragePtr with
  | none => simp [setViewState, hp, svsFail]
  | some p =>
    by_cases hv : s.r9StorageVal = 0
    · simp [setViewState, hp, hv, svsFail]
    · cases hq : s.query (s.r9StorageVal + TOGGLE_FLAG_OFFSET) with
      | none => simp [setViewState, hp, hv, hq, svsFail]
      | some mi =>
        by_cases hbad : mi.memState ≠ MEM_COMMIT ∨ mi.protect &&& writableProtectMask = 0
        · simp [setViewState, hp, hv, hq, hbad, svsFail]
        · cases hf : s.faultOnAccess (s.r9StorageVal + TOGGLE_FLAG_OFFSET) with
          | true => simp [setViewState, hp, hv, hq, hbad, hf, svsFail]
          | false =>
            by_cases heq : s.mem (s.r9StorageVal + TOGGLE_FLAG_OFFSET) = ns % 256 <;>
              simp [setViewState, hp, hv, hq, hbad, hf, heq, svsFail]

/-- Helper: a `setViewState` call with a new state that is 0 or 1 only
ever writes that value. -/
theorem setViewState_writes_val (s : MachineState) (ns : Nat) (hns : ns = 0 ∨ ns = 1)
    (w : Nat × Nat) (hw : w ∈ (setViewState s ns).writes) : w.2 = 0 ∨ w.2 = 1 := by
  rcases setViewState_writes_shape s ns with hsh | hsh
  · rw [hsh] at hw; cases hw
  · rw [hsh] at hw
    simp only [List.mem_singleton] at hw
    rcases hns with h0 | h1
    · left; rw [hw, h0]
    · right; rw [hw, h1]

/-- Helper: the writes of `safeToggleViewState` are empty or those of
`setViewState` applied to the toggled byte. -/
theorem safeToggleViewState_writes_shape (s : MachineState) :
    (safeToggleViewState s).writes = [] ∨
    (safeToggleViewState s).writes =
      (setViewState s
        (if s.mem (s.r9StorageVal + TOGGLE_FLAG_OFFSET) = 0 then 1 else 0)).writes := by
  cases hp : s.r9StoragePtr with
  | none => exact Or.inl (by simp [safeToggleViewState, hp, svsFail])
  | some p =>
    by_cases hv : s.r9StorageVal = 0
    · exact Or.inl (by simp [safeToggleViewState, hp, hv, svsFail])
    · by_cases hb : (s.badReadPtr (s.r9StorageVal + TOGGLE_FLAG_OFFSET) ||
          s.faultOnAccess (s.r9StorageVal + TOGGLE_FLAG_OFFSET)) = true
      · exact Or.inl (by simp [safeToggleViewState, hp, hv, hb, svsFail])
      · exact Or.inr (by simp [safeToggleViewState, hp, hv, hb])

/-- C10: every byte value the mod's three entry points ever write to the
flag byte is 0 or 1 — `setFirstPersonView` passes 0, `setThirdPersonView`
passes 1, and `safeToggleViewState` passes 1 exactly when the byte it
read was 0 and 0 otherwise. -/
theorem flag_writes_binary (s : MachineState) (w : Nat × Nat)
    (h : w ∈ (safeToggleViewState s).writes ∨ w ∈ (setFirstPersonView s).writes ∨
         w ∈ (setThirdPersonView s).writes) :
    w.2 = 0 ∨ w.2 = 1 := by
  rcases h with h | h | h
  · rcases safeToggleViewState_writes_shape s with hsh | hsh
    · rw [hsh] at h; cases h
    · rw [hsh] at h
      refine setViewState_writes_val s _ ?_ w h
      by_cases hz : s.mem (s.r9StorageVal + TOGGLE_FLAG_OFFSET) = 0
      · right; simp [hz]
      · left; simp [hz]
  · exact setViewState_writes_val s 0 (Or.inl rfl) w h
  · exact setViewState_writes_val s 1 (Or.inr rfl) w h

/-- Witness for C10: on the concrete all-zeros state the toggle performs
the single write of the value 1 at the flag address, and that value is 0
or 1. -/
theorem flag_writes_binary_witness :
    (0x138, 1) ∈ (safeToggleViewState sAllZeros).writes ∧
    ((0x138, 1) : Nat × Nat).2 = 0 ∨ ((0x138, 1) : Nat × Nat).2 = 1 :=
  Or.elim (flag_writes_binary sAllZeros (0x138, 1) (Or.inl (by decide)))
    (fun h0 => Or.inl ⟨by decide, h0⟩) (fun h1 => Or.inr h1)

/-- Helper: the three resource handles are NULL after any
`CleanupResources` call. -/
theorem cleanup_nulls_handles (s : GlobalsState) :
    ((CleanupResources s).1).g_tpvHookAddress = none ∧
    ((CleanupResources s).1).fpTPV_OriginalCode = none ∧
    ((CleanupResources s).1).g_r9_for_tpv_flag = none := by
  unfold CleanupResources
  rcases s with ⟨ha, hf, hr, m, l⟩
  rcases hr with _ | r <;> simp

/-- Helper: on a state whose three handles are already NULL,
`CleanupResources` performs no operation and changes nothing. -/
theorem cleanup_on_null_state (s : GlobalsState)
    (ha : s.g_tpvHookAddress = none) (hf : s.fpTPV_OriginalCode = none)
    (hr : s.g_r9_for_tpv_flag = none) :
    CleanupResources s = (s, []) := by
  rcases s with ⟨a, f, r, m, l⟩
  simp only at ha hf hr
  subst ha hf hr
  simp [CleanupResources]

/-- C5: `CleanupResources` is idempotent — after any call the three
handles are NULL, and a second call (equally, a call from the pristine
never-acquired state) performs no disable, remove, uninitialize, or free
operation and leaves the state exactly as it was. -/
theorem cleanup_idempotent :
    (∀ s : GlobalsState,
      ((CleanupResources s).1).g_tpvHookAddress = none ∧
      ((CleanupResources s).1).fpTPV_OriginalCode = none ∧
      ((CleanupResources s).1).g_r9_for_tpv_flag = none ∧
      CleanupResources ((CleanupResources s).1) = ((CleanupResources s).1, [])) ∧
    CleanupResources initGlobals = (initGlobals, []) := by
  constructor
  · intro s
    obtain ⟨ha, hf, hr⟩ := cleanup_nulls_handles s
    exact ⟨ha, hf, hr, cleanup_on_null_state _ ha hf hr⟩
  · exact cleanup_on_null_state initGlobals rfl rfl rfl

/-- C6: on every failure path of `MainThread` (nonzero exit code) all
resources acquired up to the failure point are released before the
return: the captured-pointer allocation ledger is empty (the storage was
freed or never allocated), the three global handles are NULL, the hooking
facility is back to its pristine state with no hook created or enabled,
and the key-monitoring thread was never started. -/
theorem mainthread_failure_releases_all (env : WinEnv)
    (h : (MainThread env).1 ≠ 0) :
    ((MainThread env).2.1).g_r9_for_tpv_flag = none ∧
    ((MainThread env).2.1).g_tpvHookAddress = none ∧
    ((MainThread env).2.1).fpTPV_OriginalCode = none ∧
    ((MainThread env).2.1).mh = mhClean ∧
    ((MainThread env).2.1).liveAllocs = [] ∧
    (MainThread env).2.2 = false := by
  rcases env with ⟨alloc, modb, minfo, pne, scan, initOk, createOk, cont, enableOk, threadOk⟩
  rcases alloc with _ | cell
  · simp [MainThread, initGlobals, mhClean]
  rcases modb with _ | mb
  · simp [MainThread, CleanupResources, initGlobals, mhClean, MH_Uninit]
  rcases minfo with _ | _
  · simp [MainThread, CleanupResources, initGlobals, mhClean, MH_Uninit]
  rcases pne with _ | _
  · simp [MainThread, CleanupResources, initGlobals, mhClean, MH_Uninit]
  rcases scan with _ | pstart
  · simp [MainThread, CleanupResources, initGlobals, mhClean, MH_Uninit]
  rcases initOk with _ | _
  · simp [MainThread, CleanupResources, initGlobals, mhClean, MH_Init, MH_Uninit,
      MH_DisableHookM, MH_RemoveHookM]
  rcases createOk with _ | _
  · simp [MainThread, CleanupResources, initGlobals, mhClean, MH_Init, MH_CreateHookM,
      MH_Uninit, MH_DisableHookM, MH_RemoveHookM]
  rcases cont with _ | c
  · simp [MainThread, CleanupResources, initGlobals, mhClean, MH_Init, MH_CreateHookM,
      MH_Uninit, MH_DisableHookM, MH_RemoveHookM]
  rcases enableOk with _ | _
  · simp [MainThread, CleanupResources, initGlobals, mhClean, MH_Init, MH_CreateHookM,
      MH_EnableHookM, MH_Uninit, MH_DisableHookM, MH_RemoveHookM]
  rcases threadOk with _ | _
  · simp [MainThread, CleanupResources, initGlobals, mhClean, MH_Init, MH_CreateHookM,
      MH_EnableHookM, MH_Uninit, MH_DisableHookM, MH_RemoveHookM]
  · exact absurd
      (by simp [MainThread, MH_Init, MH_CreateHookM, MH_EnableHookM, initGlobals, mhClean]) h

/-- Witness for C6: the theorem applied to the environment where the very
first acquisition (`VirtualAlloc`) fails. -/
theorem mainthread_failure_releases_all_witness :
    ((MainThread ⟨none, none, false, false, none, false, false, none, false, false⟩).2.1).g_r9_for_tpv_flag = none ∧
    ((MainThread ⟨none, none, false, false, none, false, false, none, false, false⟩).2.1).g_tpvHookAddress = none ∧
    ((MainThread ⟨none, none, false, false, none, false, false, none, false, false⟩).2.1).fpTPV_OriginalCode = none ∧
    ((MainThread ⟨none, none, false, false, none, false, false, none, false, false⟩).2.1).mh = mhClean ∧
    ((MainThread ⟨none, none, false, false, none, false, false, none, false, false⟩).2.1).liveAllocs = [] ∧
    (MainThread ⟨none, none, false, false, none, false, false, none, false, false⟩).2.2 = false :=
  mainthread_failure_releases_all _ (by decide)

/-- Helper: a key pass leaves the debounce entry of a key it does not
visit untouched. -/
theorem foldl_keyStep_wasDown_not_mem (pressed : Nat → Bool) (vk : Nat) :
    ∀ (l : List (ActionKind × Nat)) (st : KProcState), vk ∉ l.map Prod.snd →
      (l.foldl (keyStep pressed) st).wasDown vk = st.wasDown vk := by
  intro l
  induction l with
  | nil => intro st _; rfl
  | cons k rest ih =>
    intro st hmem
    simp only [List.map_cons, List.mem_cons, not_or] at hmem
    rw [List.foldl_cons, ih _ hmem.2]
    simp [keyStep, hmem.1]

/-- Helper: a key pass overwrites the debounce entry of every key it
visits with the freshly sampled state. -/
theorem foldl_keyStep_wasDown_mem (pressed : Nat → Bool) (vk : Nat) :
    ∀ (l : List (ActionKind × Nat)) (st : KProcState), vk ∈ l.map Prod.snd →
      (l.foldl (keyStep pressed) st).wasDown vk = pressed vk := by
  intro l
  induction l with
  | nil => intro st hmem; cases hmem
  | cons k rest ih =>
    intro st hmem
    by_cases h : vk ∈ rest.map Prod.snd
    · rw [List.foldl_cons]; exact ih _ h
    · have hk : vk = k.2 := by
        rcases List.mem_cons.mp hmem with h0 | h0
        · exact h0
        · exact absurd h0 h
      rw [List.foldl_cons, foldl_keyStep_wasDown_not_mem pressed vk rest _ h]
      simp [keyStep, hk]

/-- Helper: a key pass never appends an action failing a predicate that
every visited key fails. -/
theorem foldl_keyStep_acts_countP (pressed : Nat → Bool) (q : ActionKind × Nat → Bool) :
    ∀ (l : List (ActionKind × Nat)) (st : KProcState), (∀ x ∈ l, q x = false) →
      (l.foldl (keyStep pressed) st).acts.countP q = st.acts.countP q := by
  intro l
  induction l with
  | nil => intro st _; rfl
  | cons k rest ih =>
    intro st hq
    rw [List.foldl_cons, ih _ (fun x hx => hq x (List.mem_cons_of_mem _ hx))]
    by_cases hjp : (pressed k.2 && !(st.wasDown k.2)) = true
    · simp [keyStep, hjp, List.countP_append, List.countP_cons,
        hq k (List.mem_cons_self k rest)]
    · simp [keyStep, hjp]

/-- Helper: when a key occurs exactly once in the visited list, its
action fires exactly on a rising edge, and no other action is attributed
to it. -/
theorem foldl_keyStep_count (pressed : Nat → Bool) (vk : Nat) (k0 : ActionKind) :
    ∀ (l : List (ActionKind × Nat)) (st : KProcState),
      (k0, vk) ∈ l →
      l.countP (fun x => decide (x.2 = vk)) = 1 →
      ((l.foldl (keyStep pressed) st).acts.countP (fun x => decide (x = (k0, vk))) =
         st.acts.countP (fun x => decide (x = (k0, vk))) +
           (if pressed vk && !(st.wasDown vk) then 1 else 0)) ∧
      ((l.foldl (keyStep pressed) st).acts.countP (fun x => decide (x.2 = vk)) =
         st.acts.countP (fun x => decide (x.2 = vk)) +
           (if pressed vk && !(st.wasDown vk) then 1 else 0)) := by
  intro l
  induction l with
  | nil => intro st hmem; cases hmem
  | cons k rest ih =>
    intro st hmem hcnt
    rw [List.countP_cons] at hcnt
    by_cases hk : k.2 = vk
    · have hrest0 : rest.countP (fun x => decide (x.2 = vk)) = 0 := by
        have hone : (if decide (k.2 = vk) = true then 1 else 0) = 1 := by
          rw [hk]; simp
        omega
      have hnone : ∀ x ∈ rest, ¬ (x.2 = vk) := by
        intro x hx
        have := List.countP_eq_zero.mp hrest0 x hx
        simpa using this
      have hkeq : k = (k0, vk) := by
        rcases List.mem_cons.mp hmem with h0 | h0
        · exact h0.symm
        · exact absurd rfl (hnone _ h0)
      have hqpair : ∀ x ∈ rest, (fun x => decide (x = (k0, vk))) x = false := by
        intro x hx
        simp only [decide_eq_false_iff_not]
        intro hxe
        exact hnone x hx (by rw [hxe])
      have hqsnd : ∀ x ∈ rest, (fun x => decide (x.2 = vk)) x = false := by
        intro x hx
        simp only [decide_eq_false_iff_not]
        exact hnone x hx
      subst hkeq
      constructor
      · rw [List.foldl_cons, foldl_keyStep_acts_countP pressed _ rest _ hqpair]
        by_cases hjp : (pressed vk && !(st.wasDown vk)) = true
        · simp [keyStep, hjp, List.countP_append, List.countP_cons]
        · simp [keyStep, hjp]
      · rw [List.foldl_cons, foldl_keyStep_acts_countP pressed _ rest _ hqsnd]
        by_cases hjp : (pressed vk && !(st.wasDown vk)) = true
        · simp [keyStep, hjp, List.countP_append, List.countP_cons]
        · simp [keyStep, hjp]
    · have hrest1 : rest.countP (fun x => decide (x.2 = vk)) = 1 := by
        have : decide (k.2 = vk) = false := by simpa using hk
        rw [this] at hcnt
        simpa using hcnt
      have hmemrest : (k0, vk) ∈ rest := by
        rcases List.mem_cons.mp hmem with h0 | h0
        · exact absurd (congrArg Prod.snd h0).symm hk
        · exact h0
      have ihst := ih (keyStep pressed st k) hmemrest hrest1
      rw [List.foldl_cons]
      have hvk : vk ≠ k.2 := fun he => hk he.symm
      have hwd : (keyStep pressed st k).wasDown vk = st.wasDown vk := by
        simp [keyStep, hvk]
      have hne : k ≠ (k0, vk) := fun he => hk (by rw [he])
      have hacts1 : (keyStep pressed st k).acts.countP (fun x => decide (x = (k0, vk))) =
          st.acts.countP (fun x => decide (x = (k0, vk))) := by
        by_cases hjp : (pressed k.2 && !(st.wasDown k.2)) = true
        · simp [keyStep, hjp, List.countP_append, List.countP_cons, hne]
        · simp [keyStep, hjp]
      have hacts2 : (keyStep pressed st k).acts.countP (fun x => decide (x.2 = vk)) =
          st.acts.countP (fun x => decide (x.2 = vk)) := by
        by_cases hjp : (pressed k.2 && !(st.wasDown k.2)) = true
        · simp [keyStep, hjp, List.countP_append, List.countP_cons, hk]
        · simp [keyStep, hjp]
      rw [hwd, hacts1, hacts2] at ihst
      exact ihst

/-- C7: edge detection in the poll cycle. For a key configured exactly
once (with kind in the Toggle/FPV/TPV order of `taggedKeys`), its action
is invoked exactly once in a cycle when the key samples down and its
recorded state was up, never otherwise (no other action is attributed to
the key either), and the recorded state is overwritten with the fresh
sample whether or not the action fired; consequently a single Toggle key
sampling up, down, down, up, down over five cycles fires exactly two
actions, at cycles 2 and 5. -/
theorem poll_cycle_edge_detection :
    (∀ (cfg : KeyCfg) (pressed wasDown : Nat → Bool) (vk : Nat) (kind : ActionKind),
      (taggedKeys cfg).countP (fun x => decide (x.2 = vk)) = 1 →
      (kind, vk) ∈ taggedKeys cfg →
      (processKeys cfg pressed wasDown).acts.countP (fun x => decide (x = (kind, vk))) =
        (if pressed vk && !(wasDown vk) then 1 else 0) ∧
      (processKeys cfg pressed wasDown).acts.countP (fun x => decide (x.2 = vk)) =
        (if pressed vk && !(wasDown vk) then 1 else 0) ∧
      (processKeys cfg pressed wasDown).wasDown vk = pressed vk) ∧
    runLoop cfg65 initWasDown edgeInputs =
      [([], 50), ([(ActionKind.toggle, 65)], 15), ([], 50), ([], 50),
       ([(ActionKind.toggle, 65)], 15)] := by
  constructor
  · intro cfg pressed wasDown vk kind hcnt hmem
    have hc := foldl_keyStep_count pressed vk kind (taggedKeys cfg) ⟨wasDown, [], false⟩ hmem hcnt
    have hmap : vk ∈ (taggedKeys cfg).map Prod.snd :=
      List.mem_map.mpr ⟨(kind, vk), hmem, rfl⟩
    have hw := foldl_keyStep_wasDown_mem pressed vk (taggedKeys cfg) ⟨wasDown, [], false⟩ hmap
    refine ⟨?_, ?_, hw⟩
    · simpa [processKeys] using hc.1
    · simpa [processKeys] using hc.2
  · decide

/-- Witness for C7: the per-key statement applied to the concrete
configuration with key 65 bound to Toggle, on a cycle where the key is
down and was up. -/
theorem poll_cycle_edge_detection_witness :
    (processKeys cfg65 (fun v => v == 65) initWasDown).acts.countP
        (fun x => decide (x = (ActionKind.toggle, 65))) =
      (if (fun v : Nat => v == 65) 65 && !(initWasDown 65) then 1 else 0) ∧
    (processKeys cfg65 (fun v => v == 65) initWasDown).acts.countP
        (fun x => decide (x.2 = 65)) =
      (if (fun v : Nat => v == 65) 65 && !(initWasDown 65) then 1 else 0) ∧
    (processKeys cfg65 (fun v => v == 65) initWasDown).wasDown 65 = (fun v : Nat => v == 65) 65 :=
  poll_cycle_edge_detection.1 cfg65 (fun v => v == 65) initWasDown 65 ActionKind.toggle
    (by decide) (by decide)

/-- Helper: `getD` through `drop` re-indexes. -/
theorem getD_drop (l : List Nat) (a i d : Nat) :
    (l.drop a).getD i d = l.getD (a + i) d := by
  simp [List.getD_eq_getElem?_getD, List.getElem?_drop]

/-- Helper: `matchBytes` succeeds exactly when the pattern fits inside the
region suffix and every pattern entry is a wildcard or equals the byte at
its index. -/
theorem matchBytes_iff : ∀ (pat : List (Option Nat)) (rs : List Nat),
    matchBytes rs pat = true ↔
      (pat.length ≤ rs.length ∧
       ∀ i, i < pat.length →
         pat.getD i none = none ∨ pat.getD i none = some (rs.getD i 0)) := by
  intro pat
  induction pat with
  | nil => intro rs; simp [matchBytes]
  | cons p ps ih =>
    intro rs
    cases rs with
    | nil =>
      simp [matchBytes]
    | cons r rs' =>
      simp only [matchBytes]
      rw [Bool.and_eq_true, ih rs']
      constructor
      · rintro ⟨hp, hlen, hall⟩
        refine ⟨Nat.succ_le_succ hlen, ?_⟩
        intro i hi
        cases i with
        | zero =>
          cases p with
          | none => exact Or.inl rfl
          | some b =>
            right
            simp only [List.getD_cons_zero]
            have : r = b := by simpa using hp
            rw [this]
        | succ i =>
          simpa using hall i (Nat.lt_of_succ_lt_succ hi)
      · rintro ⟨hlen, hall⟩
        refine ⟨?_, Nat.le_of_succ_le_succ hlen, ?_⟩
        · have h0 := hall 0 (Nat.succ_pos _)
          cases p with
          | none => rfl
          | some b =>
            simp only [List.getD_cons_zero] at h0
            rcases h0 with h0 | h0
            · cases h0
            · have : b = r := by simpa using h0
              simp [this]
        · intro i hi
          simpa using hall (i + 1) (Nat.succ_lt_succ hi)

/-- Helper: `findFrom` returns `a + k` exactly when `k` tags the first
suffix the pattern matches. -/
theorem findFrom_some_iff : ∀ (rs : List Nat) (pat : List (Option Nat)) (a j : Nat),
    findFrom pat rs a = some j ↔
      ∃ k, j = a + k ∧ matchBytes (rs.drop k) pat = true ∧
        ∀ m, m < k → matchBytes (rs.drop m) pat = false := by
  intro rs
  induction rs with
  | nil =>
    intro pat a j
    rw [findFrom]
    by_cases h : matchBytes [] pat = true
    · simp only [h, if_true, Option.some.injEq]
      constructor
      · rintro rfl
        exact ⟨0, by omega, by simpa using h, fun m hm => absurd hm (Nat.not_lt_zero _)⟩
      · rintro ⟨k, hj, _, hmin⟩
        cases k with
        | zero => omega
        | succ k' => exact absurd (by simpa using hmin 0 (Nat.succ_pos _)) (by simp [h])
    · simp only [Bool.not_eq_true] at h
      simp only [h, Bool.false_eq_true, if_false]
      constructor
      · intro hc; cases hc
      · rintro ⟨k, _, hm, _⟩
        rw [List.drop_nil] at hm
        rw [h] at hm
        cases hm
  | cons r rs' ih =>
    intro pat a j
    rw [findFrom]
    by_cases h : matchBytes (r :: rs') pat = true
    · simp only [h, if_true, Option.some.injEq]
      constructor
      · rintro rfl
        exact ⟨0, by omega, by simpa using h, fun m hm => absurd hm (Nat.not_lt_zero _)⟩
      · rintro ⟨k, hj, _, hmin⟩
        cases k with
        | zero => omega
        | succ k' =>
          exact absurd (by simpa using hmin 0 (Nat.succ_pos _)) (by simp [h])
    · have hb : matchBytes (r :: rs') pat = false := Bool.not_eq_true _ |>.mp h
      simp only [hb, Bool.false_eq_true, if_false]
      rw [ih pat (a + 1) j]
      constructor
      · rintro ⟨k, hj, hm, hmin⟩
        refine ⟨k + 1, by omega, by simpa using hm, ?_⟩
        intro m hmk
        cases m with
        | zero => simpa using hb
        | succ m' => simpa using hmin m' (by omega)
      · rintro ⟨k, hj, hm, hmin⟩
        cases k with
        | zero =>
          rw [List.drop_zero] at hm
          rw [hb] at hm
          cases hm
        | succ k' =>
          refine ⟨k', by omega, by simpa using hm, ?_⟩
          intro m hmk
          simpa using hmin (m + 1) (by omega)

/-- Helper: a matching suffix anywhere prevents `findFrom` from returning
"not found". -/
theorem findFrom_ne_none : ∀ (rs : List Nat) (pat : List (Option Nat)) (a k : Nat),
    matchBytes (rs.drop k) pat = true → findFrom pat rs a ≠ none := by
  intro rs
  induction rs with
  | nil =>
    intro pat a k hm
    rw [List.drop_nil] at hm
    rw [findFrom, hm]
    simp
  | cons r rs' ih =>
    intro pat a k hm
    rw [findFrom]
    by_cases h : matchBytes (r :: rs') pat = true
    · simp [h]
    · have hb : matchBytes (r :: rs') pat = false := Bool.not_eq_true _ |>.mp h
      simp only [hb, Bool.false_eq_true, if_false]
      cases k with
      | zero =>
        rw [List.drop_zero] at hm
        rw [hb] at hm
        cases hm
      | succ k' =>
        exact ih pat (a + 1) k' (by simpa using hm)

/-- Helper: for an offset inside the region, the spec's matching
condition coincides with `matchBytes` on the dropped suffix. -/
theorem specMatch_iff_matchBytes (region : List Nat) (pat : List (Option Nat)) (a : Nat)
    (ha : a ≤ region.length) :
    SpecMatch region pat a ↔ matchBytes (region.drop a) pat = true := by
  rw [matchBytes_iff]
  unfold SpecMatch
  constructor
  · rintro ⟨hlen, hall⟩
    refine ⟨by rw [List.length_drop]; omega, ?_⟩
    intro i hi
    rw [getD_drop]
    exact hall i hi
  · rintro ⟨hlen, hall⟩
    rw [List.length_drop] at hlen
    refine ⟨by omega, ?_⟩
    intro i hi
    rw [← getD_drop]
    exact hall i hi

/-- Helper: a first-match offset returned by `findFrom` never lies beyond
the region's end. -/
theorem findFrom_bound (rs : List Nat) (pat : List (Option Nat)) (k : Nat)
    (hm : matchBytes (rs.drop k) pat = true)
    (hmin : ∀ m, m < k → matchBytes (rs.drop m) pat = false) :
    k ≤ rs.length := by
  by_contra hgt
  push_neg at hgt
  have hnil : rs.drop k = [] := List.drop_eq_nil_of_le (by omega)
  have hnil' : rs.drop rs.length = [] := List.drop_eq_nil_of_le (le_refl _)
  have hfalse := hmin rs.length hgt
  rw [hnil'] at hfalse
  rw [hnil] at hm
  rw [hfalse] at hm
  cases hm

/-- C9: the scanner returns `some a` exactly when `a` is the lowest offset
in `[0, length - patternLength]` at which every pattern byte is a
wildcard or equals the region byte at `a + i` (so a pattern matching at
two offsets yields the lower one), returns `none` exactly when no offset
matches, and in particular returns `none` whenever the pattern is longer
than the region; the region is a list, so no byte past its end is ever
read. -/
theorem findPattern_correct (region : List Nat) (pat : List (Option Nat)) :
    (∀ a, FindPattern region pat = some a ↔
       (SpecMatch region pat a ∧ ∀ b, b < a → ¬ SpecMatch region pat b)) ∧
    (FindPattern region pat = none ↔ ∀ a, ¬ SpecMatch region pat a) ∧
    (region.length < pat.length → FindPattern region pat = none) := by
  have hchar : ∀ a, FindPattern region pat = some a ↔
      (SpecMatch region pat a ∧ ∀ b, b < a → ¬ SpecMatch region pat b) := by
    intro a
    rw [FindPattern, findFrom_some_iff]
    constructor
    · rintro ⟨k, hj, hm, hmin⟩
      have hk : a = k := by omega
      subst hk
      have hb := findFrom_bound region pat a hm hmin
      refine ⟨(specMatch_iff_matchBytes region pat a hb).mpr hm, ?_⟩
      intro b hba hsb
      have hble : b ≤ region.length := by omega
      have := (specMatch_iff_matchBytes region pat b hble).mp hsb
      rw [hmin b hba] at this
      cases this
    · rintro ⟨hs, hmin⟩
      have hble : a ≤ region.length := by
        have := hs.1
        omega
      refine ⟨a, by omega, (specMatch_iff_matchBytes region pat a hble).mp hs, ?_⟩
      intro m hma
      have hmle : m ≤ region.length := by omega
      have hns := hmin m hma
      rw [specMatch_iff_matchBytes region pat m hmle] at hns
      exact Bool.not_eq_true _ |>.mp hns
  refine ⟨hchar, ?_, ?_⟩
  · constructor
    · intro hnone a hs
      have hble : a ≤ region.length := by
        have := hs.1
        omega
      have hm := (specMatch_iff_matchBytes region pat a hble).mp hs
      exact findFrom_ne_none region pat 0 a hm hnone
    · intro hall
      cases hfp : FindPattern region pat with
      | none => rfl
      | some j =>
        have := ((hchar j).mp hfp).1
        exact absurd this (hall j)
  · intro hlt
    cases hfp : FindPattern region pat with
    | none => rfl
    | some j =>
      have hs := ((hchar j).mp hfp).1
      have := hs.1
      omega

/-- Witness for C9: the spec's end-to-end scenario — the compiled pattern
`48 8B ?? 10` matches the example buffer at offset 0, obtained by
applying the characterization to the scanner's concrete output. -/
theorem findPattern_correct_witness :
    SpecMatch bufExample patExample 0 :=
  ((((findPattern_correct bufExample patExample).1) 0).mp (by decide)).1

end TPVToggle
